import Mathlib

/-!
Verification development for the options-tracker repository.

Shallow embedding of the strategy-reconstruction engine found in
scripts/helpers.py and scripts/parse_transactions.py. The two Python files
contain parallel variants of the same operations; they are embedded as
namespaces Helpers and Parse. Conventions of the embedding:
- Python dicts for legs/strategies become Lean structures; a missing
  optional key (such as the leg key "status") is an Option field set to none.
- Python floats for money and strikes are modelled as rationals; round(x, 2)
  is modelled with Mathlib round (ties never matter in the facts below).
- Date values flow through pd.to_datetime(x).strftime("%Y-%m-%d") unchanged
  in the claims considered here, so dates are kept as already-normalized
  strings and that conversion is the identity.
- str.upper / str.lower / regex character classes are modelled on ASCII,
  which covers every ticker and action string the scripts handle.
- File IO (yaml load/dump, os.listdir) is the store boundary: the store is a
  list of (filename, Strategy) pairs and each Python function that edits a
  file in place is a pure function from the loaded record to the saved one.
- notes (a free-text string the scripts only ever append to) is modelled as
  the list of appended note lines; no claim reads the notes content, and the
  cosmetic newline-collapsing regex of helpers.py is not modelled.
-/

/-- ASCII model of Python str.upper applied to one character. -/
def pyUpperChar (c : Char) : Char :=
  if 97 ≤ c.toNat ∧ c.toNat ≤ 122 then Char.ofNat (c.toNat - 32) else c

/-- ASCII model of Python str.lower applied to one character. -/
def pyLowerChar (c : Char) : Char :=
  if 65 ≤ c.toNat ∧ c.toNat ≤ 90 then Char.ofNat (c.toNat + 32) else c

def pyUpper (s : String) : String := String.mk (s.data.map pyUpperChar)

def pyLower (s : String) : String := String.mk (s.data.map pyLowerChar)

/-- The character class [A-Z] of the regex in normalize_ticker. -/
def isUpperAZ (c : Char) : Bool := decide (65 ≤ c.toNat ∧ c.toNat ≤ 90)

/-- pat is a leading segment of s (character lists). -/
def listMatchAt : List Char → List Char → Bool
  | [], _ => true
  | _ :: _, [] => false
  | p :: ps, c :: cs => p == c && listMatchAt ps cs

/-- Python substring test: pat in s. -/
def strContains (s pat : String) : Bool :=
  (List.range (s.data.length + 1)).any (fun i => listMatchAt pat.data (s.data.drop i))

/-- Python s.endswith(pat). -/
def strEndsWith (s pat : String) : Bool :=
  pat.data.length ≤ s.data.length &&
    listMatchAt pat.data (s.data.drop (s.data.length - pat.data.length))

/-- Python round(x, 2). Ties to even versus ties away from zero never matter
for the facts proved below. -/
def round2 (q : ℚ) : ℚ := (round (q * 100) : ℚ) / 100

/-- normalize_ticker (identical in helpers.py:14-15 and
parse_transactions.py:17-18): re.sub(r"[^A-Z]", "", ticker.upper()) —
uppercase the input, then delete every character outside A-Z. -/
def normalize_ticker (ticker : String) : String :=
  String.mk ((pyUpper ticker).data.filter isUpperAZ)

/-- One persisted leg of a strategy record. status = none models the leg
dict having no "status" key (an active leg); the scripts later set it to
"closed" or "expired". -/
structure Leg where
  type : String
  side : String
  strike : ℚ
  expiry : String
  entry_price : ℚ
  contracts : Int
  ticker : String
  status : Option String
deriving Repr, DecidableEq, Inhabited

/-- One broker transaction row, restricted to the columns the engine reads.
average_price and value are the numeric contents after the comma-stripping
float(...) conversions. underlying_symbol = none models a row without the
"Underlying Symbol" column. -/
structure Row where
  action : String
  call_or_put : String
  strike_price : ℚ
  expiration_date : String
  average_price : ℚ
  quantity : Int
  root_symbol : String
  underlying_symbol : Option String
  value : ℚ
  fees : ℚ
  type : String
  sub_type : String
deriving Repr, DecidableEq, Inhabited

/-- A strategy record as persisted in one yaml file. closed and realized_pnl
are absent keys until a position is closed. notes is the list of appended
note lines (see the header comment). -/
structure Strategy where
  initial_credit : ℚ
  legs : List Leg
  notes : List String
  opened : String
  order_ids : List Int
  roll_count : Int
  status : String
  strategy : String
  tags : List String
  ticker : String
  closed : Option String := none
  realized_pnl : Option ℚ := none
deriving Repr, DecidableEq, Inhabited

/-- parse_transactions.py: the Underlying Symbol column when the row has
one, else the Root Symbol column. -/
def symbolOf (row : Row) : String := row.underlying_symbol.getD row.root_symbol

/-- Signed entry cash flow summed over a leg list with the contracts factor
(the quantity helpers.calculate_initial_credit rounds). -/
def signedCashC (legs : List Leg) : ℚ :=
  (legs.map (fun l =>
    (if l.side = "short" then (1 : ℚ) else -1) * l.entry_price * (l.contracts : ℚ))).sum

/-- Signed entry cash flow without the contracts factor (the quantity
parse_transactions.calculate_initial_credit rounds). -/
def signedCashNoC (legs : List Leg) : ℚ :=
  (legs.map (fun l => l.entry_price * (if l.side = "short" then (1 : ℚ) else -1))).sum

/-- The identifying fields of a leg, everything except status. -/
def identOf (l : Leg) : String × ℚ × String × String × String × Int × ℚ :=
  (l.type, l.strike, l.expiry, l.side, l.ticker, l.contracts, l.entry_price)

namespace Helpers

/-- helpers.py:52-57 calculate_initial_credit: credit accumulated with
sign * entry_price * contracts over every leg given, then round(credit, 2). -/
def calculate_initial_credit (legs : List Leg) : ℚ :=
  round2 (legs.foldl
    (fun credit leg =>
      credit + (if leg.side = "short" then (1 : ℚ) else -1) * leg.entry_price * (leg.contracts : ℚ))
    0)

/-- The row filter in helpers.py:63/121: skip rows whose "Call or Put" field
contains neither PUT nor CALL. -/
def rowIsOption (row : Row) : Bool :=
  strContains row.call_or_put "PUT" || strContains row.call_or_put "CALL"

/-- Leg built from a row in helpers.py:66-78 and 123-135: side from SELL in
the action, entry price abs(average/100), ticker normalized from the root
symbol, type lowercased. -/
def rowToLeg (row : Row) : Leg :=
  { contracts := row.quantity
    entry_price := |row.average_price / 100|
    expiry := row.expiration_date
    side := if strContains row.action "SELL" then "short" else "long"
    strike := row.strike_price
    ticker := normalize_ticker row.root_symbol
    type := pyLower row.call_or_put
    status := none }

/-- helpers.py:22-50 detect_strategy_type. list(set(...)) becomes dedup; the
branches only consult lengths and the count of the first element, so the
arbitrary Python set order is immaterial. sorted(set(...)) keeps only its
length relevant as well; dedup preserves that length. -/
def detect_strategy_type (legs : List Leg) : String :=
  let puts := legs.filter (fun l => l.type == "put")
  let shorts := legs.filter (fun l => l.side == "short")
  let longs := legs.filter (fun l => l.side == "long")
  let expiries := (legs.map Leg.expiry).dedup
  let base_tickers := (legs.map (fun l => normalize_ticker l.ticker)).dedup
  if puts.length == 3 && shorts.length == 2 && longs.length == 1
      && base_tickers.length == 1 then
    let short_puts := shorts.filter (fun l => l.type == "put")
    let long_puts := longs.filter (fun l => l.type == "put")
    if short_puts.length == 2 && long_puts.length == 1 then
      let short_expiry := (short_puts.headD default).expiry
      if short_puts.all (fun l => l.expiry == short_expiry) then "Calendar 1-1-2"
      else fallback legs puts shorts longs expiries
    else fallback legs puts shorts longs expiries
  else fallback legs puts shorts longs expiries
where
  /-- The branches after the Calendar 1-1-2 test of helpers.py:39-50. -/
  fallback (_legs puts shorts longs : List Leg) (expiries : List String) : String :=
    if puts.length == 4 && shorts.length == 2 && longs.length == 2
        && expiries.length == 1 then
      let strikes := (puts.map Leg.strike).dedup
      if strikes.length == 4 then "Broken Wing Put Condor"
      else lastCases puts shorts expiries
    else lastCases puts shorts expiries
  /-- helpers.py:44-50: the Put Vertical test (over the deduplicated expiry
  list, where every count is at most 1, so it can never equal 2) and the
  Short Put test. -/
  lastCases (puts shorts : List Leg) (expiries : List String) : String :=
    if puts.length == 2 && shorts.length == 1
        && expiries.count (expiries.headD "") == 2 then "Put Vertical"
    else if puts.length == 1 && shorts.length == 1 then "Short Put"
    else "Unnamed"

/-- helpers.py:59-100 generate_yaml_from_order, up to the yaml write: the
returned record is what gets dumped to the new strategy file. -/
def generate_yaml_from_order (order_id : Int) (orders : List Row) (trade_date : String) :
    Strategy :=
  let legs := (orders.filter rowIsOption).map rowToLeg
  let base_ticker := normalize_ticker ((orders.headD default).underlying_symbol.getD "")
  { initial_credit := calculate_initial_credit legs
    legs := legs
    notes := []
    opened := trade_date
    order_ids := [order_id]
    roll_count := 0
    status := "open"
    strategy := detect_strategy_type legs
    tags := []
    ticker := base_ticker }

/-- helpers.py:102-109 match_legs. -/
def match_legs (leg1 leg2 : Leg) : Bool :=
  leg1.type == leg2.type && leg1.strike == leg2.strike && leg1.expiry == leg2.expiry
    && leg1.side == leg2.side && leg1.ticker == leg2.ticker

/-- The inner loop of helpers.py:141-145: walk the stored legs and set
status = closed on the first one that matches the closing leg and has no
status key yet. -/
def closeFirst : List Leg → Leg → List Leg
  | [], _ => []
  | s :: rest, c =>
    if match_legs c s && s.status == none then { s with status := some "closed" } :: rest
    else s :: closeFirst rest c

/-- The outer loop of helpers.py:141-145 over all closing legs. -/
def markCloses (legs : List Leg) (close_legs : List Leg) : List Leg :=
  close_legs.foldl closeFirst legs

/-- The closing legs a roll order contributes (helpers.py:119-139,
rows with TO_CLOSE in the action). -/
def close_legs_of (orders : List Row) : List Leg :=
  ((orders.filter rowIsOption).filter (fun r => strContains r.action "TO_CLOSE")).map rowToLeg

/-- The opening legs a roll order contributes (helpers.py:119-139,
rows without TO_CLOSE in the action). -/
def open_legs_of (orders : List Row) : List Leg :=
  ((orders.filter rowIsOption).filter (fun r => !strContains r.action "TO_CLOSE")).map rowToLeg

/-- The dedup key of helpers.py:159: (type, strike, expiry, side, ticker,
status) — note that contracts and entry_price are not part of the key. -/
def dedupKey (l : Leg) : String × ℚ × String × String × String × Option String :=
  (l.type, l.strike, l.expiry, l.side, l.ticker, l.status)

/-- helpers.py:156-163: keep each leg only if its key was not seen before. -/
def dedupGo (seen : List (String × ℚ × String × String × String × Option String)) :
    List Leg → List Leg
  | [] => []
  | l :: rest =>
    if dedupKey l ∈ seen then dedupGo seen rest
    else l :: dedupGo (dedupKey l :: seen) rest

/-- helpers.py:111-169 update_strategy_with_roll on the loaded record.
Order of operations as in the source: mark closes, append opens, recompute
initial_credit over that (pre-dedup) list, then dedup the legs. -/
def update_strategy_with_roll (strategy : Strategy) (orders : List Row)
    (order_id : Int) (trade_date : String) : Strategy :=
  let cs := close_legs_of orders
  let os := open_legs_of orders
  let legs1 := markCloses strategy.legs cs ++ os
  { strategy with
    legs := dedupGo [] legs1
    initial_credit := calculate_initial_credit legs1
    order_ids := strategy.order_ids ++ [order_id]
    roll_count := strategy.roll_count + 1
    notes := strategy.notes ++
      ["Rolled on " ++ trade_date ++ " (order #" ++ toString order_id ++ ")"]
    tags := (strategy.tags ++ ["rolled"]).dedup }

/-- The expiration-row filter of helpers.py:173. -/
def expFilter (df : List Row) : List Row :=
  df.filter (fun r => r.type == "Receive Deliver" && r.sub_type == "Expiration")

/-- The leg-match test of helpers.py:197-204: strike, expiry, lowercased
type, side short, contracts, and no status key. The ticker is not compared. -/
def expMatches (r : Row) (leg : Leg) : Bool :=
  leg.strike == r.strike_price && leg.expiry == r.expiration_date
    && leg.type == pyLower r.call_or_put && leg.side == "short"
    && leg.contracts == r.quantity && leg.status == none

/-- The note line appended per expired leg (helpers.py:206). -/
def expNote (leg : Leg) : String :=
  "Expired worthless: " ++ pyUpper leg.type ++ " " ++ toString leg.strike
    ++ " (" ++ leg.expiry ++ ")"

/-- One pass of the event loop body of helpers.py:189-207 over the current
legs: mark every matching active leg expired, collect one note per match,
and remember whether anything was marked (the modified flag). -/
def expStep (acc : List Leg × List String × Bool) (r : Row) :
    List Leg × List String × Bool :=
  let legs := acc.1
  let marked := legs.filter (expMatches r)
  (legs.map (fun leg => if expMatches r leg then { leg with status := some "expired" } else leg),
   acc.2.1 ++ marked.map expNote,
   acc.2.2 || !marked.isEmpty)

/-- The leg list after all expiration events have been applied. -/
def applyExpRows (legs : List Leg) (rows : List Row) : List Leg :=
  (rows.foldl expStep (legs, [], false)).1

/-- helpers.py:180-224, the per-file body of process_expirations: returns the
record as saved plus a flag that is true when the record was archived and
removed from the open store. The active-leg test of line 210 keeps every leg
whose status is not "expired" — a leg with status "closed" counts as active
here. expiration_date is overwritten on every event row, so the closing date
is the expiry of the last event row whether or not it matched. -/
def processStrategy (exp_df : List Row) (st : Strategy) : Strategy × Bool :=
  let res := exp_df.foldl expStep (st.legs, [], false)
  let legs1 := res.1
  let modified := res.2.2
  if modified then
    let active_legs := legs1.filter (fun l => !(l.status == some "expired"))
    let st1 := { st with legs := legs1, notes := st.notes ++ res.2.1 }
    if active_legs.isEmpty then
      let lastDate := (exp_df.map Row.expiration_date).getLast?
      ({ st1 with
          status := "closed"
          closed := lastDate
          notes := st1.notes ++ ["Closed via expiration on " ++ lastDate.getD ""] }, true)
    else (st1, false)
  else (st, false)

/-- helpers.py:172-224 process_expirations over the whole open store: first
component is the open store afterwards, second the records newly archived. -/
def process_expirations (df : List Row) (store : List (String × Strategy)) :
    List (String × Strategy) × List (String × Strategy) :=
  let exp_df := expFilter df
  if exp_df.isEmpty then (store, [])
  else
    (store.filterMap (fun p =>
        let r := processStrategy exp_df p.2
        if r.2 then none else some (p.1, r.1)),
     store.filterMap (fun p =>
        let r := processStrategy exp_df p.2
        if r.2 then some (p.1, r.1) else none))

end Helpers

namespace Parse

/-- parse_transactions.py:57-58 calculate_initial_credit: the sum of
entry_price * sign over the legs — without the contracts factor — rounded. -/
def calculate_initial_credit (legs : List Leg) : ℚ :=
  round2 (legs.foldl
    (fun credit leg => credit + leg.entry_price * (if leg.side = "short" then (1 : ℚ) else -1))
    0)

/-- parse_transactions.py:25-55 detect_strategy_type. -/
def detect_strategy_type (legs : List Leg) : String :=
  let puts := legs.filter (fun l => l.type == "put")
  let shorts := legs.filter (fun l => l.side == "short")
  let longs := legs.filter (fun l => l.side == "long")
  if puts.length == 4 && shorts.length == 3 && longs.length == 1 then
    let short_puts := shorts.filter (fun l => l.type == "put")
    match longs.find? (fun l => l.type == "put") with
    | some long_put =>
      let long_expiry := long_put.expiry
      let debit_spread_short := short_puts.find? (fun l => l.expiry == long_expiry)
      let near_term_puts := short_puts.filter (fun l => !(l.expiry == long_expiry))
      if debit_spread_short.isSome && near_term_puts.length == 2 then "Calendar 1-1-2"
      else afterCalendar legs puts shorts
    | none => afterCalendar legs puts shorts
  else afterCalendar legs puts shorts
where
  /-- parse_transactions.py:41-55, the branches after the calendar test. -/
  afterCalendar (legs puts shorts : List Leg) : String :=
    if legs.length == 4 then
      let put_legs := legs.filter (fun l => l.type == "put")
      if put_legs.length == 4 && ((put_legs.map Leg.expiry).dedup).length == 1 then
        "Broken Wing Put Condor"
      else tailCases legs puts shorts
    else tailCases legs puts shorts
  /-- parse_transactions.py:49-55: Put Vertical, Short Put / Short Call,
  Unnamed. -/
  tailCases (legs puts shorts : List Leg) : String :=
    if legs.length == 2 && legs.all (fun l => l.type == "put") then "Put Vertical"
    else if legs.length == 1 && !shorts.isEmpty then
      if !puts.isEmpty then "Short Put" else "Short Call"
    else "Unnamed"

/-- Leg built from a row in parse_transactions.py:125-138 (the open path):
side is short exactly when the action ends in TO_OPEN and the quantity is
positive, otherwise long; the ticker is the raw underlying (or root) symbol,
not normalized. -/
def rowToLeg (row : Row) : Leg :=
  { type := pyLower row.call_or_put
    side := if strEndsWith row.action "TO_OPEN" && row.quantity > 0 then "short" else "long"
    strike := row.strike_price
    expiry := row.expiration_date
    entry_price := |row.average_price / 100|
    contracts := row.quantity
    ticker := symbolOf row
    status := none }

/-- parse_transactions.py:121-160 generate_yaml_from_order, up to the yaml
write: every row becomes a leg (there is no option filter and no intent
validation), and initial_credit = round(sum Value - sum Fees, 2). -/
def generate_yaml_from_order (order_id : Int) (rows : List Row) (trade_date : String) :
    Strategy :=
  let legs := rows.map rowToLeg
  let gross_credit := rows.foldl (fun a r => a + r.value) 0
  let total_fees := rows.foldl (fun a r => a + r.fees) 0
  { ticker := normalize_ticker (symbolOf (rows.headD default))
    opened := trade_date
    order_ids := [order_id]
    legs := legs
    initial_credit := round2 (gross_credit - total_fees)
    strategy := detect_strategy_type legs
    status := "open"
    tags := []
    roll_count := 0
    notes := [] }

/-- Leg built from a row inside update_strategy_with_roll
(parse_transactions.py:167-179): side is short for SELL_TO_OPEN, long for
BUY_TO_OPEN, and the empty string for any other action. -/
def rollLegOf (row : Row) : Leg :=
  { type := pyLower row.call_or_put
    side := if row.action = "SELL_TO_OPEN" then "short"
            else if row.action = "BUY_TO_OPEN" then "long" else ""
    strike := row.strike_price
    expiry := row.expiration_date
    entry_price := |row.average_price / 100|
    contracts := row.quantity
    ticker := symbolOf row
    status := none }

/-- The close-match test of parse_transactions.py:183-190: equal strike,
expiry, type and ticker, opposite side, and no status key on the stored leg. -/
def closeMatch (leg existing : Leg) : Bool :=
  existing.strike == leg.strike && existing.expiry == leg.expiry
    && !(existing.side == leg.side) && existing.type == leg.type
    && existing.ticker == leg.ticker && existing.status == none

/-- The inner loop of parse_transactions.py:182-192: close the first stored
leg the closing leg matches. -/
def markFirstP : List Leg → Leg → List Leg
  | [], _ => []
  | e :: rest, leg =>
    if closeMatch leg e then { e with status := some "closed" } :: rest
    else e :: markFirstP rest leg

/-- One row of the loop of parse_transactions.py:167-194: closing actions
mark a stored leg, every other action appends the new leg. -/
def rollStep (legs : List Leg) (row : Row) : List Leg :=
  if row.action = "BUY_TO_CLOSE" || row.action = "SELL_TO_CLOSE" then
    markFirstP legs (rollLegOf row)
  else legs ++ [rollLegOf row]

/-- parse_transactions.py:162-207 update_strategy_with_roll on the loaded
record: fold the rows over the legs, then bump the bookkeeping fields and
recompute initial_credit over the whole resulting leg list. -/
def update_strategy_with_roll (strategy : Strategy) (rows : List Row)
    (order_id : Int) (trade_date : String) : Strategy :=
  let legs1 := rows.foldl rollStep strategy.legs
  { strategy with
    legs := legs1
    order_ids := strategy.order_ids ++ [order_id]
    roll_count := strategy.roll_count + 1
    tags := (strategy.tags ++ ["rolled"]).dedup
    notes := strategy.notes ++
      ["Rolled on " ++ trade_date ++ " (order #" ++ toString order_id ++ ")"]
    initial_credit := calculate_initial_credit legs1 }

end Parse

/-- The identity part of the expiration match of helpers.py:197-202
(strike, expiry, type, side, contracts — everything except the status test).
Definitionally, expMatches r leg = expIdMatch r leg && leg.status == none. -/
def Helpers.expIdMatch (r : Row) (leg : Leg) : Bool :=
  leg.strike == r.strike_price && leg.expiry == r.expiration_date
    && leg.type == pyLower r.call_or_put && leg.side == "short"
    && leg.contracts == r.quantity

/-! Concrete fixtures used by the counterexamples and witnesses below. -/

/-- A live short put held in a strategy record. -/
def legC1 : Leg :=
  { type := "put", side := "short", strike := 100, expiry := "2025-06-20"
    entry_price := 2, contracts := 1, ticker := "AAA", status := none }

/-- A transaction row closing legC1 (helpers side policy: SELL in the action
gives a short closing leg, matching the stored short leg). -/
def rowC1 : Row :=
  { action := "SELL_TO_CLOSE", call_or_put := "PUT", strike_price := 100
    expiration_date := "2025-06-20", average_price := 50, quantity := 1
    root_symbol := "AAA", underlying_symbol := some "AAA", value := 0, fees := 0
    type := "Trade", sub_type := "" }

def stC1 : Strategy :=
  { initial_credit := 2, legs := [legC1], notes := [], opened := "2025-05-01"
    order_ids := [1], roll_count := 0, status := "open", strategy := "Short Put"
    tags := [], ticker := "AAA" }

/-- A leg already closed by an earlier roll. -/
def legC2closed : Leg :=
  { type := "put", side := "short", strike := 100, expiry := "2025-06-20"
    entry_price := 1, contracts := 1, ticker := "AAA", status := some "closed" }

/-- A live short put that the expiration event below matches. -/
def legC2active : Leg :=
  { type := "put", side := "short", strike := 90, expiry := "2025-06-20"
    entry_price := 1, contracts := 1, ticker := "AAA", status := none }

/-- An expiration event row for strike 90. -/
def rowC2 : Row :=
  { action := "", call_or_put := "PUT", strike_price := 90
    expiration_date := "2025-06-20", average_price := 0, quantity := 1
    root_symbol := "AAA", underlying_symbol := some "AAA", value := 0, fees := 0
    type := "Receive Deliver", sub_type := "Expiration" }

/-- A position whose legs are all terminal after the expiration event: one
leg closed, one expiring. -/
def stC2 : Strategy :=
  { initial_credit := 2, legs := [legC2closed, legC2active], notes := []
    opened := "2025-05-01", order_ids := [1], roll_count := 1, status := "open"
    strategy := "Put Vertical", tags := ["rolled"], ticker := "AAA" }

/-- A position fully wiped out by the expiration event. -/
def stC2w : Strategy :=
  { initial_credit := 1, legs := [legC2active], notes := [], opened := "2025-05-01"
    order_ids := [1], roll_count := 0, status := "open", strategy := "Short Put"
    tags := [], ticker := "AAA" }

def legP95L : Leg :=
  { type := "put", side := "long", strike := 95, expiry := "2025-06-20"
    entry_price := 1, contracts := 1, ticker := "AAA", status := none }

def legP100S : Leg :=
  { type := "put", side := "short", strike := 100, expiry := "2025-06-20"
    entry_price := 2, contracts := 1, ticker := "AAA", status := none }

def legP105S : Leg :=
  { type := "put", side := "short", strike := 105, expiry := "2025-06-20"
    entry_price := 3, contracts := 1, ticker := "AAA", status := none }

def legP110L : Leg :=
  { type := "put", side := "long", strike := 110, expiry := "2025-06-20"
    entry_price := 4, contracts := 1, ticker := "AAA", status := none }

def legP112L : Leg :=
  { type := "put", side := "long", strike := 112, expiry := "2025-06-20"
    entry_price := 4, contracts := 1, ticker := "AAA", status := none }

/-- Symmetric put condor: strikes 95 long, 100 short, 105 short, 110 long
(both wings of width 5). -/
def condorSym : List Leg := [legP95L, legP100S, legP105S, legP110L]

/-- Broken wing put condor: strikes 95 long, 100 short, 105 short, 112 long. -/
def condorBW : List Leg := [legP95L, legP100S, legP105S, legP112L]

def legC4 : Leg :=
  { type := "put", side := "short", strike := 50, expiry := "2025-07-18"
    entry_price := 1, contracts := 2, ticker := "BBB", status := none }

def rowC4 : Row :=
  { action := "SELL_TO_CLOSE", call_or_put := "PUT", strike_price := 50
    expiration_date := "2025-07-18", average_price := 100, quantity := 2
    root_symbol := "BBB", underlying_symbol := some "BBB", value := 0, fees := 0
    type := "Trade", sub_type := "" }

def stC4 : Strategy :=
  { initial_credit := 2, legs := [legC4], notes := [], opened := "2025-05-01"
    order_ids := [1], roll_count := 0, status := "open", strategy := "Short Put"
    tags := [], ticker := "BBB" }

/-- Two live legs agreeing on every dedup-key field but holding different
entry prices. -/
def legC5a : Leg :=
  { type := "put", side := "short", strike := 40, expiry := "2025-07-18"
    entry_price := 2, contracts := 1, ticker := "CCC", status := none }

def legC5b : Leg :=
  { type := "put", side := "short", strike := 40, expiry := "2025-07-18"
    entry_price := 3, contracts := 1, ticker := "CCC", status := none }

def stC5 : Strategy :=
  { initial_credit := 5, legs := [legC5a, legC5b], notes := [], opened := "2025-05-01"
    order_ids := [1], roll_count := 0, status := "open", strategy := "Unnamed"
    tags := [], ticker := "CCC" }

/-- A closing trade handed to the position-opening path. -/
def rowC6 : Row :=
  { action := "SELL_TO_CLOSE", call_or_put := "PUT", strike_price := 100
    expiration_date := "2025-06-20", average_price := 100, quantity := 1
    root_symbol := "AAA", underlying_symbol := some "AAA", value := 100, fees := 1
    type := "Trade", sub_type := "" }

/-- One short put sold to open: entry price 1.50, gross value 1.50, fees
0.10. -/
def rowC7 : Row :=
  { action := "SELL_TO_OPEN", call_or_put := "PUT", strike_price := 100
    expiration_date := "2025-06-20", average_price := 150, quantity := 1
    root_symbol := "AAA", underlying_symbol := some "AAA", value := 3/2, fees := 1/10
    type := "Trade", sub_type := "" }

def legSP : Leg :=
  { type := "put", side := "short", strike := 100, expiry := "2025-06-20"
    entry_price := 2, contracts := 1, ticker := "AAA", status := none }

def legSC : Leg :=
  { type := "call", side := "short", strike := 100, expiry := "2025-06-20"
    entry_price := 2, contracts := 1, ticker := "AAA", status := none }

/-- One expiration event row (underlying is AAA on the row). -/
def rowC10 : Row :=
  { action := "", call_or_put := "PUT", strike_price := 100
    expiration_date := "2025-06-20", average_price := 0, quantity := 1
    root_symbol := "AAA", underlying_symbol := some "AAA", value := 0, fees := 0
    type := "Receive Deliver", sub_type := "Expiration" }

def stAAA : Strategy :=
  { initial_credit := 2, legs := [legSP], notes := [], opened := "2025-05-01"
    order_ids := [1], roll_count := 0, status := "open", strategy := "Short Put"
    tags := [], ticker := "AAA" }

/-- Same structure on a different underlying: its leg still matches the
expiration row because process_expirations never compares tickers. -/
def legSPB : Leg :=
  { type := "put", side := "short", strike := 100, expiry := "2025-06-20"
    entry_price := 2, contracts := 1, ticker := "BBB", status := none }

def stBBB : Strategy :=
  { initial_credit := 2, legs := [legSPB], notes := [], opened := "2025-05-02"
    order_ids := [2], roll_count := 0, status := "open", strategy := "Short Put"
    tags := [], ticker := "BBB" }

def storeC10 : List (String × Strategy) := [("aaa.yaml", stAAA), ("bbb.yaml", stBBB)]

/-- A live short put and a live long put on the same strike and expiry. -/
def legC4s : Leg :=
  { type := "put", side := "short", strike := 100, expiry := "2025-08-15"
    entry_price := 1, contracts := 1, ticker := "DDD", status := none }

def legC4l : Leg :=
  { type := "put", side := "long", strike := 100, expiry := "2025-08-15"
    entry_price := 1, contracts := 1, ticker := "DDD", status := none }

def stC4p : Strategy :=
  { initial_credit := 0, legs := [legC4s, legC4l], notes := [], opened := "2025-05-01"
    order_ids := [1], roll_count := 0, status := "open", strategy := "Put Vertical"
    tags := [], ticker := "DDD" }

/-- A SELL_TO_CLOSE event on that instrument: exactly one active leg (the
short put) matches its instrument and side. -/
def rowC4p : Row :=
  { action := "SELL_TO_CLOSE", call_or_put := "PUT", strike_price := 100
    expiration_date := "2025-08-15", average_price := 100, quantity := 1
    root_symbol := "DDD", underlying_symbol := some "DDD", value := 0, fees := 0
    type := "Trade", sub_type := "" }

/-! ## Supporting lemmas -/

theorem foldl_add_eq {α : Type} (f : α → ℚ) :
    ∀ (l : List α) (a : ℚ), l.foldl (fun acc x => acc + f x) a = a + (l.map f).sum := by
  intro l
  induction l with
  | nil => intro a; simp
  | cons x xs ih =>
    intro a
    simp only [List.foldl_cons, List.map_cons, List.sum_cons]
    rw [ih]
    ring

theorem dedup_of_all_eq {α : Type} [DecidableEq α] :
    ∀ (l : List α) (e : α), l ≠ [] → (∀ x ∈ l, x = e) → l.dedup = [e] := by
  intro l
  induction l with
  | nil => intro e h; exact absurd rfl h
  | cons x xs ih =>
    intro e _ hall
    have hx : x = e := hall x (List.mem_cons_self x xs)
    cases hxs : xs with
    | nil => subst hx; simp [hxs]
    | cons y ys =>
      have hxs2 : xs ≠ [] := by rw [hxs]; exact List.cons_ne_nil y ys
      have hall2 : ∀ a ∈ xs, a = e := fun a ha => hall a (List.mem_cons_of_mem x ha)
      have hmem : x ∈ xs := by
        rw [hxs]
        have : y = e := hall2 y (by rw [hxs]; exact List.mem_cons_self y ys)
        rw [hx, ← this]
        exact List.mem_cons_self y ys
      rw [← hxs, List.dedup_cons_of_mem hmem]
      exact ih e hxs2 hall2

theorem getD_map_lt {α β : Type} (f : α → β) (l : List α) (i : Nat) (d : α) (d2 : β)
    (h : i < l.length) : (l.map f).getD i d2 = f (l.getD i d) := by
  have h2 : i < (l.map f).length := by simpa using h
  rw [List.getD_eq_getElem l d h, List.getD_eq_getElem (l.map f) d2 h2]
  simp

theorem pyUpperChar_of_upper (c : Char) (h : isUpperAZ c = true) : pyUpperChar c = c := by
  have h2 : 65 ≤ c.toNat ∧ c.toNat ≤ 90 := of_decide_eq_true h
  unfold pyUpperChar
  rw [if_neg]
  omega

/-! ## C9: normalize_ticker -/

/-- Claim C9 counterexample: the claim states normalize("/ESH5") == "ES",
but re.sub(r"[^A-Z]", "", "/ESH5".upper()) keeps every uppercase letter and
yields "ESH". -/
theorem c9_counterexample :
    normalize_ticker "/ESH5" = "ESH" ∧ "ESH" ≠ "ES" := by
  constructor
  · decide
  · decide

/-- Claim C9 (amended): normalize_ticker uppercases its input and deletes
every character that is not an uppercase ASCII letter — there is no
leading-run restriction and no 1-to-3-letter cap. It is idempotent, and
concretely normalize("/ESH5") = "ESH", normalize(".SPXW") = "SPXW",
normalize("AAPL") = "AAPL". -/
theorem c9_normalize_ticker_strips_non_letters :
    (∀ s : String, normalize_ticker (normalize_ticker s) = normalize_ticker s)
    ∧ normalize_ticker "/ESH5" = "ESH"
    ∧ normalize_ticker ".SPXW" = "SPXW"
    ∧ normalize_ticker "AAPL" = "AAPL" := by
  refine ⟨?_, by decide, by decide, by decide⟩
  intro s
  unfold normalize_ticker pyUpper
  simp only
  congr 1
  have hmem : ∀ c ∈ (s.data.map pyUpperChar).filter isUpperAZ, isUpperAZ c = true :=
    fun c hc => List.of_mem_filter hc
  have hmap : ((s.data.map pyUpperChar).filter isUpperAZ).map pyUpperChar
      = (s.data.map pyUpperChar).filter isUpperAZ := by
    have := List.map_congr_left (l := (s.data.map pyUpperChar).filter isUpperAZ)
      (f := pyUpperChar) (g := id) (fun c hc => pyUpperChar_of_upper c (hmem c hc))
    simpa using this
  rw [hmap]
  exact List.filter_eq_self.mpr hmem

/-! ## C3: put condor classification -/

/-- Claim C3 counterexample: four puts, one expiry, strikes
95 long / 100 short / 105 short / 110 long with equal wing widths. The claim
states classify returns "Put Condor" here, but both variants of
detect_strategy_type return "Broken Wing Put Condor" unconditionally — no
wing-width comparison exists in the code. -/
theorem c3_counterexample :
    Helpers.detect_strategy_type condorSym = "Broken Wing Put Condor"
    ∧ Parse.detect_strategy_type condorSym = "Broken Wing Put Condor"
    ∧ ("Broken Wing Put Condor" : String) ≠ "Put Condor" := by
  exact ⟨by decide, by decide, by decide⟩

/-- Claim C3 (amended): for every leg set of exactly 4 put legs sharing one
expiry with 2 shorts, 2 longs and 4 distinct strikes, both variants of
detect_strategy_type return "Broken Wing Put Condor", whether or not the two
wing widths are equal. -/
theorem c3_four_put_one_expiry_is_broken_wing (legs : List Leg) (e : String)
    (hlen : legs.length = 4)
    (hput : ∀ l ∈ legs, l.type = "put")
    (hexp : ∀ l ∈ legs, l.expiry = e)
    (hshort : (legs.filter (fun l => l.side == "short")).length = 2)
    (hlong : (legs.filter (fun l => l.side == "long")).length = 2)
    (hnodup : (legs.map Leg.strike).Nodup) :
    Helpers.detect_strategy_type legs = "Broken Wing Put Condor"
    ∧ Parse.detect_strategy_type legs = "Broken Wing Put Condor" := by
  have hne : legs ≠ [] := by
    intro h; rw [h] at hlen; exact absurd hlen (by decide)
  have hputs : legs.filter (fun l => l.type == "put") = legs :=
    List.filter_eq_self.mpr (fun l hl => by simp [hput l hl])
  have hexpd : (legs.map Leg.expiry).dedup = [e] := by
    apply dedup_of_all_eq
    · simpa using hne
    · intro x hx
      rcases List.mem_map.mp hx with ⟨l, hl, rfl⟩
      exact hexp l hl
  have hstrikes : (legs.map Leg.strike).dedup = legs.map Leg.strike :=
    List.dedup_eq_self.mpr hnodup
  constructor
  · unfold Helpers.detect_strategy_type
    simp only [hputs, hlen, hshort, hlong, hexpd]
    unfold Helpers.detect_strategy_type.fallback
    simp only [hputs, hlen, hshort, hlong, hexpd, hstrikes]
    simp [hlen]
  · unfold Parse.detect_strategy_type
    simp only [hputs, hlen, hshort, hlong]
    unfold Parse.detect_strategy_type.afterCalendar
    simp only [hputs, hlen, hexpd]
    simp [hlen]

/-- Witness for C3 (amended) at the broken-wing scenario named by the claim:
strikes 95 long, 100 short, 105 short, 112 long. -/
theorem c3_four_put_one_expiry_is_broken_wing_witness :
    Helpers.detect_strategy_type condorBW = "Broken Wing Put Condor"
    ∧ Parse.detect_strategy_type condorBW = "Broken Wing Put Condor" :=
  c3_four_put_one_expiry_is_broken_wing condorBW "2025-06-20"
    (by decide) (by decide) (by decide) (by decide) (by decide) (by decide)

/-! ## C8: single-leg classification -/

/-- Claim C8 counterexample: a single short call. The claim states classify
returns "Short Call", but helpers.detect_strategy_type has no Short Call
branch (its single-leg test requires one put) and returns "Unnamed". -/
theorem c8_counterexample :
    Helpers.detect_strategy_type [legSC] = "Unnamed"
    ∧ ("Unnamed" : String) ≠ "Short Call" := by
  exact ⟨by decide, by decide⟩

/-- Claim C8 (amended): for a single short leg,
parse_transactions.detect_strategy_type returns "Short Put" for a put and
"Short Call" for a call; helpers.detect_strategy_type returns "Short Put"
for a put but "Unnamed" for a call (it has no Short Call branch). -/
theorem c8_single_short_leg_classification (leg : Leg) (hside : leg.side = "short") :
    (leg.type = "put" →
      Helpers.detect_strategy_type [leg] = "Short Put"
      ∧ Parse.detect_strategy_type [leg] = "Short Put")
    ∧ (leg.type = "call" →
      Helpers.detect_strategy_type [leg] = "Unnamed"
      ∧ Parse.detect_strategy_type [leg] = "Short Call") := by
  constructor
  · intro htype
    constructor
    · unfold Helpers.detect_strategy_type
      simp only [List.filter, htype, hside]
      unfold Helpers.detect_strategy_type.fallback
      unfold Helpers.detect_strategy_type.lastCases
      simp
    · unfold Parse.detect_strategy_type
      simp only [List.filter, htype, hside]
      unfold Parse.detect_strategy_type.afterCalendar
      unfold Parse.detect_strategy_type.tailCases
      simp [htype, hside]
  · intro htype
    have hnp : (("call" : String) == "put") = false := by decide
    constructor
    · unfold Helpers.detect_strategy_type
      simp only [List.filter, htype, hside, hnp]
      unfold Helpers.detect_strategy_type.fallback
      unfold Helpers.detect_strategy_type.lastCases
      simp
    · unfold Parse.detect_strategy_type
      simp only [List.filter, htype, hside, hnp]
      unfold Parse.detect_strategy_type.afterCalendar
      unfold Parse.detect_strategy_type.tailCases
      simp [htype, hside]

/-- Witness for C8 (amended) at a concrete short put and a concrete short
call. -/
theorem c8_single_short_leg_classification_witness :
    (legSP.type = "put" →
      Helpers.detect_strategy_type [legSP] = "Short Put"
      ∧ Parse.detect_strategy_type [legSP] = "Short Put")
    ∧ (legSC.type = "call" →
      Helpers.detect_strategy_type [legSC] = "Unnamed"
      ∧ Parse.detect_strategy_type [legSC] = "Short Call") :=
  ⟨(c8_single_short_leg_classification legSP (by decide)).1,
   (c8_single_short_leg_classification legSC (by decide)).2⟩

/-! ## C6: the opening path performs no close-intent validation -/

/-- Claim C6 counterexample: a batch consisting of one SELL_TO_CLOSE event.
The claim states the open fails with a ValidationError and writes no
record; instead generate_yaml_from_order builds a leg from the closing
event (side "long", because the action does not end in TO_OPEN) and
produces a normal open record. -/
theorem c6_counterexample :
    (Parse.generate_yaml_from_order 9 [rowC6] "2025-05-01").legs = [Parse.rowToLeg rowC6]
    ∧ (Parse.rowToLeg rowC6).side = "long"
    ∧ (Parse.generate_yaml_from_order 9 [rowC6] "2025-05-01").status = "open" := by
  refine ⟨rfl, by decide, rfl⟩

/-- Claim C6 (amended): generate_yaml_from_order performs no intent
validation. In parse_transactions every row (closing actions included)
becomes a leg — a BUY_TO_CLOSE / SELL_TO_CLOSE row yields a leg with side
"long" — and in helpers every row naming PUT or CALL becomes a leg; in both
variants the open record is produced with status "open". -/
theorem c6_close_intent_rows_become_legs (oid : Int) (rows : List Row) (d : String)
    (row : Row) (hmem : row ∈ rows)
    (hact : row.action = "BUY_TO_CLOSE" ∨ row.action = "SELL_TO_CLOSE") :
    Parse.rowToLeg row ∈ (Parse.generate_yaml_from_order oid rows d).legs
    ∧ (Parse.rowToLeg row).side = "long"
    ∧ (Parse.generate_yaml_from_order oid rows d).status = "open"
    ∧ (Helpers.generate_yaml_from_order oid rows d).status = "open"
    ∧ (Helpers.rowIsOption row = true →
        Helpers.rowToLeg row ∈ (Helpers.generate_yaml_from_order oid rows d).legs) := by
  refine ⟨?_, ?_, rfl, rfl, ?_⟩
  · exact List.mem_map_of_mem Parse.rowToLeg hmem
  · unfold Parse.rowToLeg
    have h1 : strEndsWith "BUY_TO_CLOSE" "TO_OPEN" = false := by decide
    have h2 : strEndsWith "SELL_TO_CLOSE" "TO_OPEN" = false := by decide
    rcases hact with h | h <;> simp [h, h1, h2]
  · intro hopt
    exact List.mem_map_of_mem Helpers.rowToLeg (List.mem_filter.mpr ⟨hmem, hopt⟩)

/-- Witness for C6 (amended) at the concrete SELL_TO_CLOSE batch. -/
theorem c6_close_intent_rows_become_legs_witness :
    Parse.rowToLeg rowC6 ∈ (Parse.generate_yaml_from_order 11 [rowC6] "2025-05-01").legs
    ∧ (Parse.rowToLeg rowC6).side = "long"
    ∧ (Parse.generate_yaml_from_order 11 [rowC6] "2025-05-01").status = "open"
    ∧ (Helpers.generate_yaml_from_order 11 [rowC6] "2025-05-01").status = "open"
    ∧ (Helpers.rowIsOption rowC6 = true →
        Helpers.rowToLeg rowC6 ∈ (Helpers.generate_yaml_from_order 11 [rowC6] "2025-05-01").legs) :=
  c6_close_intent_rows_become_legs 11 [rowC6] "2025-05-01" rowC6
    (List.mem_singleton.mpr rfl) (Or.inr (by decide))

/-! ## C7: initial credit of a freshly opened position -/

/-- Claim C7: parse_transactions.generate_yaml_from_order computes
initial_credit = round(sum Value - sum Fees, 2) as the claim states; the
helpers.py variant of the same operation instead stores
round(sum of sign * entry_price * contracts, 2) and ignores the Fees and
Value columns entirely, even though its own log line announces the figure
as "net credit after fees". At the failing input (one short put sold for
1.50 with 0.10 fees) helpers stores 1.50 where the claim requires 1.40. -/
theorem c7_initial_credit_net_of_fees :
    (∀ (oid : Int) (rows : List Row) (d : String),
      (Parse.generate_yaml_from_order oid rows d).initial_credit
        = round2 ((rows.map Row.value).sum - (rows.map Row.fees).sum))
    ∧ (Helpers.generate_yaml_from_order 3 [rowC7] "2025-05-01").initial_credit = 3/2
    ∧ round2 ((([rowC7] : List Row).map Row.value).sum
        - (([rowC7] : List Row).map Row.fees).sum) = 7/5
    ∧ (3/2 : ℚ) ≠ 7/5 := by
  refine ⟨?_, ?_, ?_, by norm_num⟩
  · intro oid rows d
    unfold Parse.generate_yaml_from_order
    simp only
    rw [foldl_add_eq Row.value rows 0, foldl_add_eq Row.fees rows 0]
    simp
  · have hopt : Helpers.rowIsOption rowC7 = true := by decide
    have hside : strContains rowC7.action "SELL" = true := by decide
    have habs : |((150 : ℚ)) / 100| = 3/2 := by
      rw [abs_of_pos] <;> norm_num
    unfold Helpers.generate_yaml_from_order Helpers.calculate_initial_credit
    simp only [List.filter, hopt, List.map, Helpers.rowToLeg, hside]
    show round2 (0 + (if ("short" : String) = "short" then (1 : ℚ) else -1)
      * |rowC7.average_price / 100| * ((rowC7.quantity : Int) : ℚ)) = 3/2
    have hap : rowC7.average_price = 150 := rfl
    have hq : rowC7.quantity = 1 := rfl
    rw [hap, hq, if_pos rfl, habs]
    norm_num [round2]
  · simp only [List.map, List.sum_cons, List.sum_nil]
    have hv : rowC7.value = 3/2 := rfl
    have hf : rowC7.fees = 1/10 := rfl
    rw [hv, hf]
    norm_num [round2]

/-! ## C1: initial credit after a roll merge -/

/-- Claim C1 counterexample: a position holding one short put (entry 2,
1 contract) rolled with a single SELL_TO_CLOSE event that closes that leg.
Afterwards no leg is active, so the claim requires initial_credit = 0, but
update_strategy_with_roll recomputes the credit over all legs including the
newly closed one and stores 2. -/
theorem c1_counterexample :
    (Helpers.update_strategy_with_roll stC1 [rowC1] 2 "2025-06-01").initial_credit = 2
    ∧ (Helpers.update_strategy_with_roll stC1 [rowC1] 2 "2025-06-01").legs.filter
        (fun l => l.status == none) = []
    ∧ round2 (signedCashC ((Helpers.update_strategy_with_roll stC1 [rowC1] 2
        "2025-06-01").legs.filter (fun l => l.status == none))) = 0
    ∧ (2 : ℚ) ≠ 0 := by
  have hmark : Helpers.markCloses stC1.legs (Helpers.close_legs_of [rowC1])
      ++ Helpers.open_legs_of [rowC1] = [{ legC1 with status := some "closed" }] := by
    decide
  refine ⟨?_, by decide, ?_, by norm_num⟩
  · show Helpers.calculate_initial_credit (Helpers.markCloses stC1.legs
      (Helpers.close_legs_of [rowC1]) ++ Helpers.open_legs_of [rowC1]) = 2
    rw [hmark]
    unfold Helpers.calculate_initial_credit
    norm_num [legC1, round2]
  · have hfil : (Helpers.update_strategy_with_roll stC1 [rowC1] 2 "2025-06-01").legs.filter
        (fun l => l.status == none) = [] := by decide
    rw [hfil]
    norm_num [signedCashC, round2]

/-- Claim C1 (amended): after update_strategy_with_roll, initial_credit is
the rounded signed entry cash flow summed over ALL legs of the post-merge
leg list — closed and expired legs included. In helpers.py the sum weights
each leg by its contract count and is taken over the marked-and-extended
list before the dedup step; in parse_transactions.py the sum omits the
contracts factor. -/
theorem c1_roll_credit_sums_all_legs (st : Strategy) (orders : List Row)
    (oid : Int) (d : String) :
    (Helpers.update_strategy_with_roll st orders oid d).initial_credit
      = round2 (signedCashC (Helpers.markCloses st.legs (Helpers.close_legs_of orders)
          ++ Helpers.open_legs_of orders))
    ∧ (Parse.update_strategy_with_roll st orders oid d).initial_credit
      = round2 (signedCashNoC (orders.foldl Parse.rollStep st.legs)) := by
  constructor
  · show Helpers.calculate_initial_credit _ = _
    unfold Helpers.calculate_initial_credit
    rw [foldl_add_eq (fun l : Leg =>
      (if l.side = "short" then (1 : ℚ) else -1) * l.entry_price * (l.contracts : ℚ))]
    simp [signedCashC]
  · show Parse.calculate_initial_credit _ = _
    unfold Parse.calculate_initial_credit
    rw [foldl_add_eq (fun l : Leg =>
      l.entry_price * (if l.side = "short" then (1 : ℚ) else -1))]
    simp [signedCashNoC]

/-! ## Expiration-processing lemmas -/

theorem expMatches_eq_split (r : Row) (leg : Leg) :
    Helpers.expMatches r leg = (Helpers.expIdMatch r leg && leg.status == none) := rfl

theorem fst_foldl_expStep (rows : List Row) :
    ∀ (legs : List Leg) (ns ns2 : List String) (b b2 : Bool),
      (rows.foldl Helpers.expStep (legs, ns, b)).1
        = (rows.foldl Helpers.expStep (legs, ns2, b2)).1 := by
  induction rows with
  | nil => intros; rfl
  | cons r rs ih =>
    intro legs ns ns2 b b2
    simp only [List.foldl_cons, Helpers.expStep]
    exact ih _ _ _ _ _

theorem applyExpRows_cons (legs : List Leg) (r : Row) (rs : List Row) :
    Helpers.applyExpRows legs (r :: rs)
      = Helpers.applyExpRows (legs.map (fun leg =>
          if Helpers.expMatches r leg then { leg with status := some "expired" } else leg)) rs := by
  unfold Helpers.applyExpRows
  simp only [List.foldl_cons, Helpers.expStep]
  exact fst_foldl_expStep rs _ _ _ _ _

theorem applyExpRows_getD (rows : List Row) :
    ∀ (legs : List Leg) (i : Nat), i < legs.length →
      (Helpers.applyExpRows legs rows).getD i default =
        (if (legs.getD i default).status = none
            ∧ rows.any (fun r => Helpers.expIdMatch r (legs.getD i default)) = true
         then { legs.getD i default with status := some "expired" }
         else legs.getD i default) := by
  induction rows with
  | nil =>
    intro legs i _
    simp [Helpers.applyExpRows]
  | cons r rs ih =>
    intro legs i h
    rw [applyExpRows_cons]
    have hlen1 : i < (legs.map (fun leg =>
        if Helpers.expMatches r leg then { leg with status := some "expired" } else leg)).length := by
      simpa using h
    have hmapD : (legs.map (fun leg =>
        if Helpers.expMatches r leg then { leg with status := some "expired" } else leg)).getD i default
        = (if Helpers.expMatches r (legs.getD i default)
           then { legs.getD i default with status := some "expired" } else legs.getD i default) :=
      getD_map_lt _ legs i default default h
    rw [ih _ i hlen1, hmapD]
    by_cases h1 : Helpers.expMatches r (legs.getD i default) = true
    · have hsplit := h1
      rw [expMatches_eq_split] at hsplit
      simp only [Bool.and_eq_true] at hsplit
      rcases hsplit with ⟨hid, hstat⟩
      have hstat2 : (legs.getD i default).status = none := by
        simpa using hstat
      rw [if_pos h1]
      have hcondR : (legs.getD i default).status = none
          ∧ (r :: rs).any (fun r2 => Helpers.expIdMatch r2 (legs.getD i default)) = true := by
        refine ⟨hstat2, ?_⟩
        rw [List.any_cons, hid, Bool.true_or]
      rw [if_pos hcondR]
      rw [if_neg]
      intro hcontra
      simp at hcontra
    · rw [if_neg h1]
      by_cases hstat : (legs.getD i default).status = none
      · have hid : Helpers.expIdMatch r (legs.getD i default) = false := by
          have := h1
          rw [expMatches_eq_split] at this
          revert this
          rw [hstat]
          cases hr : Helpers.expIdMatch r (legs.getD i default) <;> simp
        rw [List.any_cons, hid, Bool.false_or]
      · rw [if_neg (fun hc => hstat hc.1), if_neg (fun hc => hstat hc.1)]

theorem map_mark_id_of_no_match (legs : List Leg) (r : Row)
    (h : (legs.filter (Helpers.expMatches r)).isEmpty = true) :
    legs.map (fun leg =>
      if Helpers.expMatches r leg then { leg with status := some "expired" } else leg) = legs := by
  have h2 : ∀ l ∈ legs, Helpers.expMatches r l = false := by
    intro l hl
    cases hc : Helpers.expMatches r l with
    | false => rfl
    | true =>
      have hmem : l ∈ legs.filter (Helpers.expMatches r) := List.mem_filter.mpr ⟨hl, hc⟩
      rw [List.isEmpty_iff] at h
      rw [h] at hmem
      exact absurd hmem (List.not_mem_nil l)
  have : legs.map (fun leg =>
      if Helpers.expMatches r leg then { leg with status := some "expired" } else leg)
      = legs.map id :=
    List.map_congr_left (fun l hl => by rw [h2 l hl]; rfl)
  rw [this, List.map_id]

theorem applyExpRows_cons_ne (r : Row) (rs : List Row) (legs : List Leg)
    (h : (legs.filter (Helpers.expMatches r)).isEmpty = false) :
    Helpers.applyExpRows legs (r :: rs) ≠ legs := by
  have hne : legs.filter (Helpers.expMatches r) ≠ [] := by
    intro hn
    rw [hn] at h
    simp at h
  rcases List.exists_mem_of_ne_nil _ hne with ⟨x, hx⟩
  have hxl : x ∈ legs := List.mem_of_mem_filter hx
  have hxm : Helpers.expMatches r x = true := List.of_mem_filter hx
  rcases List.mem_iff_getElem.mp hxl with ⟨i, hi, hgi⟩
  have hgD : legs.getD i default = x := by
    rw [List.getD_eq_getElem legs default hi, hgi]
  have hsplit := hxm
  rw [expMatches_eq_split] at hsplit
  simp only [Bool.and_eq_true] at hsplit
  rcases hsplit with ⟨hid, hstat⟩
  have hstat2 : x.status = none := by simpa using hstat
  have hchar := applyExpRows_getD (r :: rs) legs i hi
  rw [hgD] at hchar
  have hcond : x.status = none
      ∧ (r :: rs).any (fun r2 => Helpers.expIdMatch r2 x) = true := by
    refine ⟨hstat2, ?_⟩
    rw [List.any_cons, hid, Bool.true_or]
  rw [if_pos hcond] at hchar
  intro heq
  rw [heq, hgD] at hchar
  have := congrArg Leg.status hchar
  rw [hstat2] at this
  exact Option.noConfusion this

theorem foldl_expStep_flag (rows : List Row) :
    ∀ (legs : List Leg) (ns : List String) (b : Bool),
      ((rows.foldl Helpers.expStep (legs, ns, b)).2.2 = true)
        ↔ (b = true ∨ Helpers.applyExpRows legs rows ≠ legs) := by
  induction rows with
  | nil =>
    intro legs ns b
    simp [Helpers.applyExpRows]
  | cons r rs ih =>
    intro legs ns b
    simp only [List.foldl_cons, Helpers.expStep]
    rw [ih]
    cases hm : (legs.filter (Helpers.expMatches r)).isEmpty with
    | true =>
      have hid := map_mark_id_of_no_match legs r hm
      rw [applyExpRows_cons, hid]
      simp
    | false =>
      have hne := applyExpRows_cons_ne r rs legs hm
      rw [applyExpRows_cons] at hne
      rw [applyExpRows_cons]
      simp [hne]

/-! ## C10: expiration events match every leg of every position, tickers ignored -/

/-- Claim C10: an expiration event set marks expired exactly the legs that
were active and agree on (strike, expiry, type, side=short, contracts) with
some event — in every position, at every index, without stopping at a first
match and without comparing the underlying ticker. Concretely, a single
expiration event marks matching legs in two different positions on two
different underlyings (AAA and BBB), archiving both. -/
theorem c10_expirations_mark_all_matches_across_positions
    (rows : List Row) (st : Strategy) (i : Nat) (h : i < st.legs.length) :
    ((Helpers.applyExpRows st.legs rows).getD i default =
      (if (st.legs.getD i default).status = none
          ∧ rows.any (fun r => Helpers.expIdMatch r (st.legs.getD i default)) = true
       then { st.legs.getD i default with status := some "expired" }
       else st.legs.getD i default))
    ∧ (Helpers.process_expirations [rowC10] storeC10).2.map (fun p => p.2.ticker)
        = ["AAA", "BBB"]
    ∧ (∀ p ∈ (Helpers.process_expirations [rowC10] storeC10).2, ∀ l ∈ p.2.legs,
        l.status = some "expired")
    ∧ (Helpers.process_expirations [rowC10] storeC10).1 = [] := by
  refine ⟨applyExpRows_getD rows st.legs i h, by decide, by decide, by decide⟩

/-- Witness for C10 at the concrete AAA store entry and index 0. -/
theorem c10_expirations_mark_all_matches_across_positions_witness :
    ((Helpers.applyExpRows stAAA.legs [rowC10]).getD 0 default =
      (if (stAAA.legs.getD 0 default).status = none
          ∧ [rowC10].any (fun r => Helpers.expIdMatch r (stAAA.legs.getD 0 default)) = true
       then { stAAA.legs.getD 0 default with status := some "expired" }
       else stAAA.legs.getD 0 default))
    ∧ (Helpers.process_expirations [rowC10] storeC10).2.map (fun p => p.2.ticker)
        = ["AAA", "BBB"]
    ∧ (∀ p ∈ (Helpers.process_expirations [rowC10] storeC10).2, ∀ l ∈ p.2.legs,
        l.status = some "expired")
    ∧ (Helpers.process_expirations [rowC10] storeC10).1 = [] :=
  c10_expirations_mark_all_matches_across_positions [rowC10] stAAA 0 (by decide)

/-! ## C2: when an expiration pass closes and archives a position -/

/-- Claim C2 counterexample: a position whose two legs are both terminal
after the expiration pass (one status closed, one newly expired). The claim
requires the position to be closed and archived; the code keeps it open and
non-terminal, because the active-leg test of process_expirations only
treats status "expired" as terminal and counts the closed leg as active. -/
theorem c2_counterexample :
    (Helpers.processStrategy [rowC2] stC2).2 = false
    ∧ (Helpers.processStrategy [rowC2] stC2).1.status = "open"
    ∧ (∀ l ∈ (Helpers.processStrategy [rowC2] stC2).1.legs,
        l.status = some "closed" ∨ l.status = some "expired") := by
  exact ⟨by decide, by decide, by decide⟩

/-- Claim C2 (amended): the per-position expiration pass returns
terminal = true exactly when it marked at least one leg and every leg of
the resulting position has status "expired" — a leg whose status is
"closed" counts as still active for this check and blocks archiving. When
terminal, the saved record has status "closed", its closing date is the
expiry date of the last processed event row, and the record moves from the
open store to the archive; when not terminal the position status and
closing date are untouched. -/
theorem c2_terminal_iff_all_legs_expired (exp_df : List Row) (st : Strategy) :
    ((Helpers.processStrategy exp_df st).2 = true ↔
      (Helpers.applyExpRows st.legs exp_df ≠ st.legs
        ∧ ∀ l ∈ Helpers.applyExpRows st.legs exp_df, l.status = some "expired"))
    ∧ ((Helpers.processStrategy exp_df st).2 = true →
        (Helpers.processStrategy exp_df st).1.status = "closed"
        ∧ (Helpers.processStrategy exp_df st).1.closed
            = (exp_df.map Row.expiration_date).getLast?
        ∧ (Helpers.processStrategy exp_df st).1.legs = Helpers.applyExpRows st.legs exp_df)
    ∧ ((Helpers.processStrategy exp_df st).2 = false →
        (Helpers.processStrategy exp_df st).1.status = st.status
        ∧ (Helpers.processStrategy exp_df st).1.closed = st.closed)
    ∧ (∀ (fname : String) (df : List Row), Helpers.expFilter df = exp_df → exp_df ≠ [] →
        Helpers.process_expirations df [(fname, st)]
          = (if (Helpers.processStrategy exp_df st).2
             then ([], [(fname, (Helpers.processStrategy exp_df st).1)])
             else ([(fname, (Helpers.processStrategy exp_df st).1)], []))) := by
  have hstore : ∀ (fname : String) (df : List Row), Helpers.expFilter df = exp_df →
      exp_df ≠ [] →
      Helpers.process_expirations df [(fname, st)]
        = (if (Helpers.processStrategy exp_df st).2
           then ([], [(fname, (Helpers.processStrategy exp_df st).1)])
           else ([(fname, (Helpers.processStrategy exp_df st).1)], [])) := by
    intro fname df hdf hne
    have hemp : exp_df.isEmpty = false := by
      cases exp_df with
      | nil => exact absurd rfl hne
      | cons a l => rfl
    unfold Helpers.process_expirations
    cases hterm : (Helpers.processStrategy exp_df st).2 <;>
      simp [hdf, hemp, List.filterMap_cons, hterm]
  have hflag := foldl_expStep_flag exp_df st.legs [] false
  simp only [false_or, Bool.false_eq_true] at hflag
  have hfst : (exp_df.foldl Helpers.expStep (st.legs, [], false)).1
      = Helpers.applyExpRows st.legs exp_df := rfl
  by_cases hmod : (exp_df.foldl Helpers.expStep (st.legs, [], false)).2.2 = true
  · have hne := hflag.mp hmod
    by_cases hact : ((Helpers.applyExpRows st.legs exp_df).filter
        (fun l => !(l.status == some "expired"))).isEmpty = true
    · have hall : ∀ l ∈ Helpers.applyExpRows st.legs exp_df, l.status = some "expired" := by
        intro l hl
        rw [List.isEmpty_iff] at hact
        by_contra hc
        have hmem : l ∈ (Helpers.applyExpRows st.legs exp_df).filter
            (fun l => !(l.status == some "expired")) := by
          refine List.mem_filter.mpr ⟨hl, ?_⟩
          simp [hc]
        rw [hact] at hmem
        exact absurd hmem (List.not_mem_nil l)
      have hps : Helpers.processStrategy exp_df st
          = ({ st with
                legs := Helpers.applyExpRows st.legs exp_df
                notes := (st.notes ++ (exp_df.foldl Helpers.expStep (st.legs, [], false)).2.1)
                  ++ ["Closed via expiration on "
                      ++ ((exp_df.map Row.expiration_date).getLast?).getD ""]
                status := "closed"
                closed := (exp_df.map Row.expiration_date).getLast? }, true) := by
        unfold Helpers.processStrategy
        simp only [hmod, hfst, hact, if_true]
      rw [hps]
      refine ⟨?_, ?_, ?_, ?_⟩
      · simp only [true_iff]
        exact ⟨hne, hall⟩
      · intro _
        exact ⟨rfl, rfl, rfl⟩
      · intro hcontra
        simp at hcontra
      · rw [← hps]
        exact hstore
    · have hactf : ((Helpers.applyExpRows st.legs exp_df).filter
          (fun l => !(l.status == some "expired"))).isEmpty = false := by
        cases hh : ((Helpers.applyExpRows st.legs exp_df).filter
            (fun l => !(l.status == some "expired"))).isEmpty
        · rfl
        · exact absurd hh hact
      have hnall : ¬ ∀ l ∈ Helpers.applyExpRows st.legs exp_df,
          l.status = some "expired" := by
        intro hall
        have : (Helpers.applyExpRows st.legs exp_df).filter
            (fun l => !(l.status == some "expired")) = [] := by
          rw [List.filter_eq_nil_iff]
          intro l hl
          simp [hall l hl]
        rw [this] at hactf
        simp at hactf
      have hps : Helpers.processStrategy exp_df st
          = ({ st with
                legs := Helpers.applyExpRows st.legs exp_df
                notes := st.notes ++ (exp_df.foldl Helpers.expStep (st.legs, [], false)).2.1 },
             false) := by
        unfold Helpers.processStrategy
        simp only [hmod, hfst, hactf, if_true, Bool.false_eq_true, if_false]
      rw [hps]
      refine ⟨?_, ?_, ?_, ?_⟩
      · simp only [Bool.false_eq_true, false_iff]
        intro hc
        exact hnall hc.2
      · intro hcontra
        simp at hcontra
      · intro _
        exact ⟨rfl, rfl⟩
      · rw [← hps]
        exact hstore
  · have hmodf : (exp_df.foldl Helpers.expStep (st.legs, [], false)).2.2 = false := by
      cases hh : (exp_df.foldl Helpers.expStep (st.legs, [], false)).2.2
      · rfl
      · exact absurd hh hmod
    have hnne : ¬ Helpers.applyExpRows st.legs exp_df ≠ st.legs := by
      intro hne
      exact hmod (hflag.mpr hne)
    have hps : Helpers.processStrategy exp_df st = (st, false) := by
      unfold Helpers.processStrategy
      simp only [hmodf, Bool.false_eq_true, if_false]
    rw [hps]
    refine ⟨?_, ?_, ?_, ?_⟩
    · simp only [Bool.false_eq_true, false_iff]
      intro hc
      exact hnne hc.1
    · intro hcontra
      simp at hcontra
    · intro _
      exact ⟨rfl, rfl⟩
    · rw [← hps]
      exact hstore

/-- Witness for C2 (amended): a position whose only leg expires is archived
with status closed. -/
theorem c2_terminal_iff_all_legs_expired_witness :
    (Helpers.processStrategy [rowC2] stC2w).2 = true
    ∧ (Helpers.processStrategy [rowC2] stC2w).1.status = "closed" := by
  have h := c2_terminal_iff_all_legs_expired [rowC2] stC2w
  have ht : (Helpers.processStrategy [rowC2] stC2w).2 = true :=
    h.1.mpr ⟨by decide, by decide⟩
  exact ⟨ht, (h.2.1 ht).1⟩

/-! ## Roll-merge lemmas: close marking and dedup -/

theorem closeFirst_length (c : Leg) :
    ∀ legs : List Leg, (Helpers.closeFirst legs c).length = legs.length := by
  intro legs
  induction legs with
  | nil => rfl
  | cons s rest ih =>
    simp only [Helpers.closeFirst]
    split
    · simp
    · simp [ih]

theorem closeFirst_getD_ident (c : Leg) :
    ∀ (legs : List Leg) (i : Nat),
      identOf ((Helpers.closeFirst legs c).getD i default) = identOf (legs.getD i default) := by
  intro legs
  induction legs with
  | nil => intro i; rfl
  | cons s rest ih =>
    intro i
    simp only [Helpers.closeFirst]
    split
    · cases i with
      | zero => rfl
      | succ j => rfl
    · cases i with
      | zero => rfl
      | succ j => exact ih j

theorem markCloses_length (cs : List Leg) :
    ∀ legs : List Leg, (Helpers.markCloses legs cs).length = legs.length := by
  induction cs with
  | nil => intro _; rfl
  | cons c cs2 ih =>
    intro legs
    show (List.foldl Helpers.closeFirst (Helpers.closeFirst legs c) cs2).length = _
    rw [show List.foldl Helpers.closeFirst (Helpers.closeFirst legs c) cs2
        = Helpers.markCloses (Helpers.closeFirst legs c) cs2 from rfl]
    rw [ih, closeFirst_length]

theorem markCloses_getD_ident (cs : List Leg) :
    ∀ (legs : List Leg) (i : Nat),
      identOf ((Helpers.markCloses legs cs).getD i default) = identOf (legs.getD i default) := by
  induction cs with
  | nil => intro _ _; rfl
  | cons c cs2 ih =>
    intro legs i
    show identOf ((Helpers.markCloses (Helpers.closeFirst legs c) cs2).getD i default) = _
    rw [ih (Helpers.closeFirst legs c) i, closeFirst_getD_ident c legs i]

theorem dedupGo_mem_sub (x : Leg) :
    ∀ (l : List Leg) (seen : List (String × ℚ × String × String × String × Option String)),
      x ∈ Helpers.dedupGo seen l → x ∈ l := by
  intro l
  induction l with
  | nil => intro seen h; exact absurd h (List.not_mem_nil x)
  | cons y ys ih =>
    intro seen h
    simp only [Helpers.dedupGo] at h
    by_cases hk : Helpers.dedupKey y ∈ seen
    · rw [if_pos hk] at h
      exact List.mem_cons_of_mem y (ih seen h)
    · rw [if_neg hk] at h
      rcases List.mem_cons.mp h with h1 | h2
      · rw [h1]; exact List.mem_cons_self y ys
      · exact List.mem_cons_of_mem y (ih _ h2)

theorem dedupGo_key_not_mem (x : Leg) :
    ∀ (l : List Leg) (seen : List (String × ℚ × String × String × String × Option String)),
      x ∈ Helpers.dedupGo seen l → Helpers.dedupKey x ∉ seen := by
  intro l
  induction l with
  | nil => intro seen h; exact absurd h (List.not_mem_nil x)
  | cons y ys ih =>
    intro seen h
    simp only [Helpers.dedupGo] at h
    by_cases hk : Helpers.dedupKey y ∈ seen
    · rw [if_pos hk] at h
      exact ih seen h
    · rw [if_neg hk] at h
      rcases List.mem_cons.mp h with h1 | h2
      · rw [h1]; exact hk
      · have h3 := ih _ h2
        intro hc
        exact h3 (List.mem_cons_of_mem _ hc)

theorem dedupGo_keys_nodup :
    ∀ (l : List Leg) (seen : List (String × ℚ × String × String × String × Option String)),
      ((Helpers.dedupGo seen l).map Helpers.dedupKey).Nodup := by
  intro l
  induction l with
  | nil => intro seen; simp [Helpers.dedupGo]
  | cons y ys ih =>
    intro seen
    simp only [Helpers.dedupGo]
    split
    · exact ih seen
    · rw [List.map_cons]
      refine List.nodup_cons.mpr ⟨?_, ih _⟩
      intro hc
      rcases List.mem_map.mp hc with ⟨z, hz, hzk⟩
      have h2 := dedupGo_key_not_mem z ys _ hz
      exact h2 (by rw [hzk]; exact List.mem_cons_self _ _)

theorem dedupGo_eq_self :
    ∀ (l : List Leg) (seen : List (String × ℚ × String × String × String × Option String)),
      (∀ x ∈ l, Helpers.dedupKey x ∉ seen) → ((l.map Helpers.dedupKey).Nodup) →
      Helpers.dedupGo seen l = l := by
  intro l
  induction l with
  | nil => intro seen _ _; rfl
  | cons y ys ih =>
    intro seen hseen hnd
    simp only [Helpers.dedupGo]
    rw [if_neg (hseen y (List.mem_cons_self y ys))]
    congr 1
    apply ih
    · intro x hx hc
      rcases List.mem_cons.mp hc with h1 | h2
      · rw [List.map_cons] at hnd
        have h3 := (List.nodup_cons.mp hnd).1
        exact h3 (by rw [← h1]; exact List.mem_map_of_mem _ hx)
      · exact hseen x (List.mem_cons_of_mem y hx) h2
    · rw [List.map_cons] at hnd
      exact (List.nodup_cons.mp hnd).2

theorem dedupGo_idem (l : List Leg) :
    Helpers.dedupGo [] (Helpers.dedupGo [] l) = Helpers.dedupGo [] l :=
  dedupGo_eq_self _ [] (fun _ _ => List.not_mem_nil _) (dedupGo_keys_nodup l [])

theorem dedupGo_getD_mem_or :
    ∀ (l : List Leg) (seen : List (String × ℚ × String × String × String × Option String))
      (i : Nat), i < l.length →
      l.getD i default ∈ Helpers.dedupGo seen l
      ∨ Helpers.dedupKey (l.getD i default) ∈ seen
      ∨ ∃ j, j < i ∧ Helpers.dedupKey (l.getD j default)
          = Helpers.dedupKey (l.getD i default) := by
  intro l
  induction l with
  | nil => intro seen i h; simp at h
  | cons y ys ih =>
    intro seen i h
    cases i with
    | zero =>
      simp only [Helpers.dedupGo]
      by_cases hk : Helpers.dedupKey y ∈ seen
      · right; left; exact hk
      · left
        rw [if_neg hk]
        exact List.mem_cons_self _ _
    | succ j =>
      have hj : j < ys.length := by simpa using h
      simp only [Helpers.dedupGo]
      by_cases hk : Helpers.dedupKey y ∈ seen
      · rw [if_pos hk]
        rcases ih seen j hj with h1 | h2 | h3
        · left; exact h1
        · right; left; exact h2
        · right; right
          rcases h3 with ⟨j2, hj2, hkeq⟩
          exact ⟨j2 + 1, by omega, hkeq⟩
      · rw [if_neg hk]
        rcases ih (Helpers.dedupKey y :: seen) j hj with h1 | h2 | h3
        · left; exact List.mem_cons_of_mem _ h1
        · rcases List.mem_cons.mp h2 with hh | hh
          · right; right
            exact ⟨0, Nat.succ_pos j, hh.symm⟩
          · right; left; exact hh
        · right; right
          rcases h3 with ⟨j2, hj2, hkeq⟩
          exact ⟨j2 + 1, by omega, hkeq⟩

theorem closeFirst_countP_zero (c : Leg) :
    ∀ legs : List Leg,
      legs.countP (fun s => Helpers.match_legs c s && s.status == none) = 1 →
      (Helpers.closeFirst legs c).countP
        (fun s => Helpers.match_legs c s && s.status == none) = 0 := by
  intro legs
  induction legs with
  | nil => intro h; simp at h
  | cons s rest ih =>
    intro h
    rw [List.countP_cons] at h
    simp only [Helpers.closeFirst]
    by_cases hp : (Helpers.match_legs c s && s.status == none) = true
    · rw [if_pos hp]
      rw [if_pos hp] at h
      have hrest : rest.countP (fun s => Helpers.match_legs c s && s.status == none) = 0 := by
        omega
      have hm : ((({ s with status := some "closed" } : Leg).status == none)) = false := rfl
      rw [List.countP_cons, hrest]
      simp [hm]
    · rw [if_neg hp]
      rw [if_neg hp, Nat.add_zero] at h
      rw [List.countP_cons, if_neg hp, Nat.add_zero]
      exact ih h

theorem closeFirst_id_of_countP_zero (c : Leg) :
    ∀ legs : List Leg,
      legs.countP (fun s => Helpers.match_legs c s && s.status == none) = 0 →
      Helpers.closeFirst legs c = legs := by
  intro legs
  induction legs with
  | nil => intro _; rfl
  | cons s rest ih =>
    intro h
    rw [List.countP_cons] at h
    simp only [Helpers.closeFirst]
    have hp : ¬ ((Helpers.match_legs c s && s.status == none) = true) := by
      intro hc
      rw [if_pos hc] at h
      omega
    rw [if_neg hp]
    rw [if_neg hp, Nat.add_zero] at h
    rw [ih h]

theorem countP_zero_of_mem_sub (p : Leg → Bool) (l l2 : List Leg)
    (hsub : ∀ x ∈ l2, x ∈ l) (h : l.countP p = 0) : l2.countP p = 0 := by
  rw [List.countP_eq_zero] at h ⊢
  exact fun a ha => h a (hsub a ha)

/-! ## C4: replaying a close event at the leg level -/

theorem markFirstP_countP_zero (c : Leg) :
    ∀ legs : List Leg,
      legs.countP (fun e => Parse.closeMatch c e) = 1 →
      (Parse.markFirstP legs c).countP (fun e => Parse.closeMatch c e) = 0 := by
  intro legs
  induction legs with
  | nil => intro h; simp at h
  | cons e rest ih =>
    intro h
    rw [List.countP_cons] at h
    simp only [Parse.markFirstP]
    by_cases hp : Parse.closeMatch c e = true
    · rw [if_pos hp]
      rw [if_pos hp] at h
      have hrest : rest.countP (fun e => Parse.closeMatch c e) = 0 := by
        omega
      have hm : ((({ e with status := some "closed" } : Leg).status == none)) = false := rfl
      rw [List.countP_cons, hrest]
      simp [Parse.closeMatch, hm]
    · rw [if_neg hp]
      rw [if_neg hp, Nat.add_zero] at h
      rw [List.countP_cons, if_neg hp, Nat.add_zero]
      exact ih h

theorem markFirstP_id_of_countP_zero (c : Leg) :
    ∀ legs : List Leg,
      legs.countP (fun e => Parse.closeMatch c e) = 0 →
      Parse.markFirstP legs c = legs := by
  intro legs
  induction legs with
  | nil => intro _; rfl
  | cons e rest ih =>
    intro h
    rw [List.countP_cons] at h
    simp only [Parse.markFirstP]
    have hp : ¬ (Parse.closeMatch c e = true) := by
      intro hc
      rw [if_pos hc] at h
      omega
    rw [if_neg hp]
    rw [if_neg hp, Nat.add_zero] at h
    rw [ih h]

/-- Claim C4 counterexample: a position holding an active short put and an
active long put on the same strike, expiry and underlying, rolled twice
with the same SELL_TO_CLOSE event. Exactly one active leg (the short put)
matches the event instrument and side, as the claim requires, yet in the
parse_transactions variant the close leg is built with side the empty
string and the match accepts any active leg of a different side — so the
first application closes the short put and the replay marks the long put
closed as well: the replay is not a no-op at the Leg level. -/
theorem c4_counterexample :
    stC4p.legs.countP (fun s =>
        Helpers.match_legs (Helpers.rowToLeg rowC4p) s && s.status == none) = 1
    ∧ (Parse.update_strategy_with_roll stC4p [rowC4p] 1 "2025-06-01").legs.countP
        (fun l => l.status == some "closed") = 1
    ∧ (Parse.update_strategy_with_roll
        (Parse.update_strategy_with_roll stC4p [rowC4p] 1 "2025-06-01") [rowC4p] 2
        "2025-06-02").legs.countP (fun l => l.status == some "closed") = 2
    ∧ (Parse.update_strategy_with_roll
        (Parse.update_strategy_with_roll stC4p [rowC4p] 1 "2025-06-01") [rowC4p] 2
        "2025-06-02").legs
      ≠ (Parse.update_strategy_with_roll stC4p [rowC4p] 1 "2025-06-01").legs := by
  exact ⟨by decide, by decide, by decide, by decide⟩

/-- Claim C4 (amended): replaying the same close event is a no-op at the
Leg level provided exactly one active leg matches the close leg under the
match predicate of the variant at hand. For helpers.py that predicate is
the one of the claim — equal type, strike, expiry, side and ticker on a leg
with no status key. For parse_transactions.py the close leg is built with
side the empty string and the predicate instead accepts any active leg of
the instrument whose side differs from it, so uniqueness must hold for
that opposite-side test; with a second active leg on the instrument the
replay marks it closed (see the counterexample). Both predicates select
only legs with no status field, which is what makes the replay inert. -/
theorem c4_close_event_replay_noop (st : Strategy) (row : Row)
    (oid1 oid2 : Int) (d1 d2 : String) :
    (Helpers.rowIsOption row = true →
      strContains row.action "TO_CLOSE" = true →
      st.legs.countP (fun s =>
        Helpers.match_legs (Helpers.rowToLeg row) s && s.status == none) = 1 →
      (Helpers.update_strategy_with_roll
          (Helpers.update_strategy_with_roll st [row] oid1 d1) [row] oid2 d2).legs
        = (Helpers.update_strategy_with_roll st [row] oid1 d1).legs)
    ∧ ((row.action = "BUY_TO_CLOSE" ∨ row.action = "SELL_TO_CLOSE") →
      st.legs.countP (fun e => Parse.closeMatch (Parse.rollLegOf row) e) = 1 →
      (Parse.update_strategy_with_roll
          (Parse.update_strategy_with_roll st [row] oid1 d1) [row] oid2 d2).legs
        = (Parse.update_strategy_with_roll st [row] oid1 d1).legs) := by
  constructor
  · intro hopt hclose hone
    have hcl : Helpers.close_legs_of [row] = [Helpers.rowToLeg row] := by
      simp [Helpers.close_legs_of, hopt, hclose]
    have hol : Helpers.open_legs_of [row] = [] := by
      simp [Helpers.open_legs_of, hopt, hclose]
    have hlegs1 : ∀ (st2 : Strategy) (o : Int) (dd : String),
        (Helpers.update_strategy_with_roll st2 [row] o dd).legs
          = Helpers.dedupGo [] (Helpers.closeFirst st2.legs (Helpers.rowToLeg row)) := by
      intro st2 o dd
      simp only [Helpers.update_strategy_with_roll, hcl, hol]
      simp [Helpers.markCloses]
    have hzero : (Helpers.closeFirst st.legs (Helpers.rowToLeg row)).countP
        (fun s => Helpers.match_legs (Helpers.rowToLeg row) s && s.status == none) = 0 :=
      closeFirst_countP_zero (Helpers.rowToLeg row) st.legs hone
    have hzero2 : (Helpers.dedupGo [] (Helpers.closeFirst st.legs
        (Helpers.rowToLeg row))).countP
        (fun s => Helpers.match_legs (Helpers.rowToLeg row) s && s.status == none) = 0 :=
      countP_zero_of_mem_sub _ _ _ (fun x hx => dedupGo_mem_sub x _ [] hx) hzero
    have hid : Helpers.closeFirst
        (Helpers.dedupGo [] (Helpers.closeFirst st.legs (Helpers.rowToLeg row)))
        (Helpers.rowToLeg row)
        = Helpers.dedupGo [] (Helpers.closeFirst st.legs (Helpers.rowToLeg row)) :=
      closeFirst_id_of_countP_zero (Helpers.rowToLeg row) _ hzero2
    rw [hlegs1 (Helpers.update_strategy_with_roll st [row] oid1 d1) oid2 d2,
      hlegs1 st oid1 d1, hid, dedupGo_idem]
  · intro hact hone
    have hstep : ∀ legs : List Leg,
        Parse.rollStep legs row = Parse.markFirstP legs (Parse.rollLegOf row) := by
      intro legs
      rcases hact with h | h <;> simp [Parse.rollStep, h]
    have hlegs1 : ∀ (st2 : Strategy) (o : Int) (dd : String),
        (Parse.update_strategy_with_roll st2 [row] o dd).legs
          = Parse.markFirstP st2.legs (Parse.rollLegOf row) := by
      intro st2 o dd
      show [row].foldl Parse.rollStep st2.legs = _
      simp only [List.foldl_cons, List.foldl_nil]
      exact hstep st2.legs
    have hzero : (Parse.markFirstP st.legs (Parse.rollLegOf row)).countP
        (fun e => Parse.closeMatch (Parse.rollLegOf row) e) = 0 :=
      markFirstP_countP_zero (Parse.rollLegOf row) st.legs hone
    have hid : Parse.markFirstP (Parse.markFirstP st.legs (Parse.rollLegOf row))
        (Parse.rollLegOf row)
        = Parse.markFirstP st.legs (Parse.rollLegOf row) :=
      markFirstP_id_of_countP_zero (Parse.rollLegOf row) _ hzero
    rw [hlegs1 (Parse.update_strategy_with_roll st [row] oid1 d1) oid2 d2,
      hlegs1 st oid1 d1, hid]

/-- Witness for C4 (amended): a concrete single-leg position and its
closing event, replayed through both variants. -/
theorem c4_close_event_replay_noop_witness :
    (Helpers.update_strategy_with_roll
        (Helpers.update_strategy_with_roll stC4 [rowC4] 1 "2025-06-01") [rowC4] 2
        "2025-06-02").legs
      = (Helpers.update_strategy_with_roll stC4 [rowC4] 1 "2025-06-01").legs
    ∧ (Parse.update_strategy_with_roll
        (Parse.update_strategy_with_roll stC4 [rowC4] 1 "2025-06-01") [rowC4] 2
        "2025-06-02").legs
      = (Parse.update_strategy_with_roll stC4 [rowC4] 1 "2025-06-01").legs :=
  ⟨(c4_close_event_replay_noop stC4 rowC4 1 2 "2025-06-01" "2025-06-02").1
      (by decide) (by decide) (by decide),
   (c4_close_event_replay_noop stC4 rowC4 1 2 "2025-06-01" "2025-06-02").2
      (Or.inr rfl) (by decide)⟩

/-! ## Parse-roll and expiration identity-preservation lemmas -/

theorem markFirstP_length (leg : Leg) :
    ∀ legs : List Leg, (Parse.markFirstP legs leg).length = legs.length := by
  intro legs
  induction legs with
  | nil => rfl
  | cons e rest ih =>
    simp only [Parse.markFirstP]
    split
    · simp
    · simp [ih]

theorem markFirstP_getD_ident (leg : Leg) :
    ∀ (legs : List Leg) (i : Nat),
      identOf ((Parse.markFirstP legs leg).getD i default) = identOf (legs.getD i default) := by
  intro legs
  induction legs with
  | nil => intro i; rfl
  | cons e rest ih =>
    intro i
    simp only [Parse.markFirstP]
    split
    · cases i with
      | zero => rfl
      | succ j => rfl
    · cases i with
      | zero => rfl
      | succ j => exact ih j

theorem rollStep_length_le (legs : List Leg) (row : Row) :
    legs.length ≤ (Parse.rollStep legs row).length := by
  unfold Parse.rollStep
  split
  · rw [markFirstP_length]
  · simp

theorem rollStep_getD_ident (legs : List Leg) (row : Row) (i : Nat) (h : i < legs.length) :
    identOf ((Parse.rollStep legs row).getD i default) = identOf (legs.getD i default) := by
  unfold Parse.rollStep
  split
  · exact markFirstP_getD_ident _ legs i
  · rw [List.getD_eq_getElem?_getD, List.getD_eq_getElem?_getD,
      List.getElem?_append_left h]

theorem foldl_rollStep_getD_ident (rows : List Row) :
    ∀ (legs : List Leg) (i : Nat), i < legs.length →
      identOf ((rows.foldl Parse.rollStep legs).getD i default)
        = identOf (legs.getD i default) := by
  induction rows with
  | nil => intro _ _ _; rfl
  | cons r rs ih =>
    intro legs i h
    rw [List.foldl_cons]
    have h2 : i < (Parse.rollStep legs r).length :=
      Nat.lt_of_lt_of_le h (rollStep_length_le legs r)
    rw [ih _ i h2, rollStep_getD_ident legs r i h]

theorem applyExpRows_getD_ident (rows : List Row) :
    ∀ (legs : List Leg) (i : Nat),
      identOf ((Helpers.applyExpRows legs rows).getD i default)
        = identOf (legs.getD i default) := by
  induction rows with
  | nil => intro _ _; rfl
  | cons r rs ih =>
    intro legs i
    rw [applyExpRows_cons, ih]
    by_cases h : i < legs.length
    · rw [getD_map_lt _ legs i default default h]
      split
      · rfl
      · rfl
    · have hge : legs.length ≤ i := Nat.le_of_not_lt h
      rw [List.getD_eq_default _ _ hge, List.getD_eq_default]
      simpa using hge

theorem getD_append_lt (l l2 : List Leg) (i : Nat) (h : i < l.length) :
    (l ++ l2).getD i default = l.getD i default := by
  rw [List.getD_eq_getElem?_getD, List.getD_eq_getElem?_getD, List.getElem?_append_left h]

/-! ## C5: legs are preserved — except for the helpers dedup step -/

/-- Claim C5 counterexample: a position with two live legs that agree on
(type, strike, expiry, side, ticker, status) but carry different entry
prices. The claim states engine operations never remove legs, but
update_strategy_with_roll in helpers.py deduplicates on a key that omits
contracts and entry_price, so the second leg is dropped — here even by a
roll carrying no events at all. -/
theorem c5_counterexample :
    legC5b ∈ stC5.legs
    ∧ (Helpers.update_strategy_with_roll stC5 [] 7 "2025-06-01").legs = [legC5a]
    ∧ legC5b ∉ (Helpers.update_strategy_with_roll stC5 [] 7 "2025-06-01").legs
    ∧ legC5a ≠ legC5b := by
  exact ⟨by decide, by decide, by decide, by decide⟩

/-- Claim C5 (amended): every leg present before an engine operation keeps
its identifying fields (type, strike, expiry, side, ticker, contracts,
entry_price) — only status can change — and survives into the result, with
one exception: the dedup step of helpers update_strategy_with_roll drops a
leg exactly when an earlier leg of the marked-and-extended list shares its
(type, strike, expiry, side, ticker, status) key, even if contracts or
entry_price differ. parse_transactions update_strategy_with_roll and
process_expirations preserve every leg positionally. -/
theorem c5_legs_preserved_up_to_dedup (st : Strategy) (orders rows : List Row)
    (oid : Int) (d : String) (i : Nat) (h : i < st.legs.length) :
    identOf ((Helpers.markCloses st.legs (Helpers.close_legs_of orders)).getD i default)
      = identOf (st.legs.getD i default)
    ∧ ((Helpers.markCloses st.legs (Helpers.close_legs_of orders)).getD i default
          ∈ (Helpers.update_strategy_with_roll st orders oid d).legs
        ∨ ∃ j, j < i ∧ Helpers.dedupKey
            ((Helpers.markCloses st.legs (Helpers.close_legs_of orders)
              ++ Helpers.open_legs_of orders).getD j default)
          = Helpers.dedupKey
            ((Helpers.markCloses st.legs (Helpers.close_legs_of orders)).getD i default))
    ∧ identOf ((Parse.update_strategy_with_roll st rows oid d).legs.getD i default)
      = identOf (st.legs.getD i default)
    ∧ identOf ((Helpers.applyExpRows st.legs rows).getD i default)
      = identOf (st.legs.getD i default) := by
  have hmlen : i < (Helpers.markCloses st.legs (Helpers.close_legs_of orders)).length := by
    rw [markCloses_length]
    exact h
  have hL : i < (Helpers.markCloses st.legs (Helpers.close_legs_of orders)
      ++ Helpers.open_legs_of orders).length := by
    rw [List.length_append]
    omega
  refine ⟨markCloses_getD_ident _ st.legs i, ?_, ?_, applyExpRows_getD_ident rows st.legs i⟩
  · have hres : (Helpers.update_strategy_with_roll st orders oid d).legs
        = Helpers.dedupGo [] (Helpers.markCloses st.legs (Helpers.close_legs_of orders)
            ++ Helpers.open_legs_of orders) := rfl
    rcases dedupGo_getD_mem_or _ [] i hL with h1 | h2 | h3
    · left
      rw [hres]
      rw [getD_append_lt _ _ i hmlen] at h1
      exact h1
    · exact absurd h2 (List.not_mem_nil _)
    · right
      rcases h3 with ⟨j, hj, hk⟩
      refine ⟨j, hj, ?_⟩
      rw [getD_append_lt _ _ i hmlen] at hk
      exact hk
  · have hres : (Parse.update_strategy_with_roll st rows oid d).legs
        = rows.foldl Parse.rollStep st.legs := rfl
    rw [hres]
    exact foldl_rollStep_getD_ident rows st.legs i h

/-- Witness for C5 (amended) at the duplicate-leg position with an empty
roll batch. -/
theorem c5_legs_preserved_up_to_dedup_witness :
    identOf ((Helpers.markCloses stC5.legs (Helpers.close_legs_of [])).getD 0 default)
      = identOf (stC5.legs.getD 0 default)
    ∧ ((Helpers.markCloses stC5.legs (Helpers.close_legs_of [])).getD 0 default
          ∈ (Helpers.update_strategy_with_roll stC5 [] 7 "2025-06-01").legs
        ∨ ∃ j, j < 0 ∧ Helpers.dedupKey
            ((Helpers.markCloses stC5.legs (Helpers.close_legs_of [])
              ++ Helpers.open_legs_of []).getD j default)
          = Helpers.dedupKey
            ((Helpers.markCloses stC5.legs (Helpers.close_legs_of [])).getD 0 default))
    ∧ identOf ((Parse.update_strategy_with_roll stC5 [] 7 "2025-06-01").legs.getD 0 default)
      = identOf (stC5.legs.getD 0 default)
    ∧ identOf ((Helpers.applyExpRows stC5.legs []).getD 0 default)
      = identOf (stC5.legs.getD 0 default) :=
  c5_legs_preserved_up_to_dedup stC5 [] [] 7 "2025-06-01" 0 (by decide)
